import Mathlib

/-!
Shallow embedding of the response-caching layer of the vehicle-dealership
backend (`src/cache_manager.py`, `src/routes/vehicles_cached.py`,
`src/main.py`), together with proofs of the specified properties.

Python values returned by wrapped read handlers are modelled by the
inductive type `PyVal`; the in-memory cache backend (Flask-Caching's
SimpleCache, a library external to the repository) is modelled from the
spec as a bounded association list with absolute expiry times.  Stateful
Python functions become explicit state-passing Lean functions; `try/except`
blocks become `Except` values that are matched on.
-/

namespace CacheSpec

/-- Python values that can flow through the cache layer: `None`, ints,
strings, lists, dicts (association lists), tuples, and Flask
`Response`-like objects (the only modelled objects carrying a
`status_code` attribute). -/
inductive PyVal where
  | none
  | int (n : Int)
  | str (s : String)
  | list (xs : List PyVal)
  | dict (kvs : List (String × PyVal))
  | tuple (xs : List PyVal)
  | response (statusCode : Nat) (body : String)

/-- Python truthiness (`bool(v)`) for the modelled values: `None`, `0`,
`""` and empty containers are falsy; a response object is truthy. -/
def truthy : PyVal → Bool
  | .none => false
  | .int n => n != 0
  | .str s => s ≠ ""
  | .list xs => !xs.isEmpty
  | .dict kvs => !kvs.isEmpty
  | .tuple xs => !xs.isEmpty
  | .response _ _ => true

/-- The test `isinstance(result, (list, dict))` from `cache_manager.py` line 67. -/
def isinstance_list_dict : PyVal → Bool
  | .list _ => true
  | .dict _ => true
  | _ => false

/-- The test `hasattr(result, 'status_code')` from `cache_manager.py` line 67. -/
def hasattr_status_code : PyVal → Bool
  | .response _ _ => true
  | _ => false

/-- The guard on `cache_manager.py` line 67 deciding whether a computed
result is stored: `result and (isinstance(result, (list, dict)) or
hasattr(result, 'status_code'))`. -/
def cacheable_result (v : PyVal) : Bool :=
  truthy v && (isinstance_list_dict v || hasattr_status_code v)

/-- The spec's words for a cacheable shape: "a mapping, a sequence, or a
tagged HTTP-response-like object".  In Python, lists, tuples and strings
are all sequences.  Stated from the spec, to be compared with the source's
`cacheable_result`. -/
def cacheable_shape_spec : PyVal → Bool
  | .dict _ => true
  | .list _ => true
  | .tuple _ => true
  | .str _ => true
  | .response _ _ => true
  | _ => false

/-- One stored cache entry: key, payload, and absolute expiry time
(store time + TTL), as kept by the in-memory backend. -/
structure CacheEntry where
  key : String
  val : PyVal
  expires : Nat

/-- Modelled from the spec: the SimpleCache backend used by
`cache_manager.py` is library code absent from the repository; per spec
§3/§4.4 it is a process-wide bounded mapping from keys to entries, kept
here as a list in insertion order (oldest first) with a configured item
threshold. -/
structure SimpleCache where
  entries : List CacheEntry
  threshold : Nat

/-- An empty store with the default `CACHE_THRESHOLD` of 500 items
(`init_cache`, `cache_manager.py` line 21). -/
def SimpleCache.empty : SimpleCache := { entries := [], threshold := 500 }

/-- Modelled from the spec: `cache.get(key)` — an entry is visible only
while unexpired ("every entry's age never exceeds its TTL at read time —
lazily checked — an expired entry is treated as absent"). -/
def SimpleCache.get (c : SimpleCache) (k : String) (now : Nat) : Option PyVal :=
  match c.entries.find? (fun e => e.key = k && now < e.expires) with
  | some e => some e.val
  | Option.none => Option.none

/-- Modelled from the spec: `cache.set(key, value, timeout)` — any
previous entry under the key is overwritten, and "once the number of live
entries would exceed the configured threshold, the store must evict to
make room before inserting", dropping the oldest-inserted entries first
(FIFO, the substitute the spec accepts). -/
def SimpleCache.set (c : SimpleCache) (k : String) (v : PyVal) (timeout now : Nat) :
    SimpleCache :=
  let kept := c.entries.filter (fun e => e.key ≠ k)
  let room := kept.drop (kept.length + 1 - c.threshold)
  { c with entries := room ++ [{ key := k, val := v, expires := now + timeout }] }

/-- Modelled from the spec: `cache.clear()` empties the whole store. -/
def SimpleCache.clear (c : SimpleCache) : SimpleCache :=
  { c with entries := [] }

/-- Outcome of one call to a cache-decorated read handler: the returned
value, the store afterwards, how many times the wrapped function ran, and
the observability signals emitted. -/
structure CallResult where
  result : PyVal
  store : SimpleCache
  fnCalls : Nat
  logs : List String

/-- The body of `decorated_function` inside `cache_vehicles_list` /
`cache_vehicle_detail` (`cache_manager.py` lines 52–71), with the derived
cache key, the current time and the store passed explicitly: on hit return
the cached value ("HIT"); on miss run `f` ("MISS") and store the result
with the given timeout only when `cacheable_result` holds ("SET"). -/
def decorated_function (cache_key : String) (f : Unit → PyVal) (timeout : Nat)
    (c : SimpleCache) (now : Nat) : CallResult :=
  match c.get cache_key now with
  | some cached => { result := cached, store := c, fnCalls := 0, logs := ["HIT"] }
  | Option.none =>
    let r := f ()
    if cacheable_result r then
      { result := r, store := c.set cache_key r timeout now, fnCalls := 1,
        logs := ["MISS", "SET"] }
    else
      { result := r, store := c, fnCalls := 1, logs := ["MISS"] }

/-- The sorted-keyword rendering of `generate_cache_key`'s argument list
(`cache_manager.py` line 39): keyword pairs are ordered lexicographically
by key, then by value (Python's tuple order on `sorted(kwargs.items())`). -/
def kwLe (p q : String × String) : Prop :=
  p.1 < q.1 ∨ (p.1 = q.1 ∧ p.2 ≤ q.2)

instance : DecidableRel kwLe := fun p q => by
  unfold kwLe; infer_instance

instance : IsTotal (String × String) kwLe where
  total p q := by
    rcases lt_trichotomy p.1 q.1 with h | h | h
    · exact Or.inl (Or.inl h)
    · rcases le_total p.2 q.2 with h2 | h2
      · exact Or.inl (Or.inr ⟨h, h2⟩)
      · exact Or.inr (Or.inr ⟨h.symm, h2⟩)
    · exact Or.inr (Or.inl h)

instance : IsTrans (String × String) kwLe where
  trans p q r hpq hqr := by
    rcases hpq with h1 | ⟨e1, v1⟩
    · rcases hqr with h2 | ⟨e2, _⟩
      · exact Or.inl (lt_trans h1 h2)
      · exact Or.inl (e2 ▸ h1)
    · rcases hqr with h2 | ⟨e2, v2⟩
      · exact Or.inl (e1 ▸ h2)
      · exact Or.inr ⟨e1.trans e2, le_trans v1 v2⟩

instance : IsAntisymm (String × String) kwLe where
  antisymm p q hpq hqp := by
    rcases hpq with h1 | ⟨e1, v1⟩
    · rcases hqp with h2 | ⟨e2, _⟩
      · exact absurd (lt_trans h1 h2) (lt_irrefl _)
      · exact absurd h1 (e2 ▸ lt_irrefl _)
    · rcases hqp with h2 | ⟨e2, v2⟩
      · exact absurd h2 (e1 ▸ lt_irrefl _)
      · exact Prod.ext e1 (le_antisymm v1 v2)

/-- One keyword argument rendered as `f"{k}={v}"`. -/
def renderKw (p : String × String) : String := p.1 ++ "=" ++ p.2

/-- Embeds `generate_cache_key` (`cache_manager.py` lines 31–43): join the
request-URL part, the positional arguments, and the sorted keyword
arguments with `"|"`, then hash.  The MD5 hex digest is library code;
it is kept as an explicit parameter `hash`, an arbitrary deterministic
function of the joined string. -/
def generate_cache_key (hash : String → String) (urlPart : String)
    (args : List String) (kwargs : List (String × String)) : String :=
  let key_parts := [urlPart] ++ args ++ (kwargs.insertionSort kwLe).map renderKw
  hash (String.intercalate "|" key_parts)

/-- Outcome of `invalidate_vehicle_cache`: the store afterwards, whether
the call raised, and the log lines emitted. -/
structure InvalidateResult where
  store : SimpleCache
  raised : Bool
  logs : List String

/-- Embeds `invalidate_vehicle_cache` (`cache_manager.py` lines 114–137): both
the entity-scoped and the global branch call `cache.clear()` (SimpleCache
has no wildcard delete); the whole body is wrapped in `try/except`, so a
failing `clear` is caught and logged.  `clearFails` models whether the
backend's `clear()` raises. -/
def invalidate_vehicle_cache (vehicle_id : Option Nat) (clearFails : Bool)
    (c : SimpleCache) : InvalidateResult :=
  let body : Except String (SimpleCache × String) :=
    match vehicle_id with
    | some vid =>
      if clearFails then Except.error "clear failed"
      else Except.ok (c.clear, s!"Cache invalidado para veículo {vid}")
    | Option.none =>
      if clearFails then Except.error "clear failed"
      else Except.ok (c.clear, "Todo o cache foi invalidado")
  match body with
  | Except.ok (s, msg) => { store := s, raised := false, logs := [msg] }
  | Except.error e =>
    { store := c, raised := false, logs := ["Erro ao invalidar cache: " ++ e] }

/-- The dictionary returned by `cache_stats`. -/
structure CacheStats where
  cache_type : String
  status : String
  note : String
  error : Option String

/-- The `try` body of `cache_stats` (`cache_manager.py` lines 141–147):
a literal dictionary, so it never raises. -/
def cache_stats_body : Except String CacheStats :=
  Except.ok { cache_type := "SimpleCache", status := "active",
              note := "Estatísticas limitadas no SimpleCache", error := Option.none }

/-- Embeds `cache_stats` (`cache_manager.py` lines 139–153): return the `try`
body's dictionary, or the `status: error` dictionary if it raised. -/
def cache_stats : CacheStats :=
  match cache_stats_body with
  | Except.ok s => s
  | Except.error e =>
    { cache_type := "SimpleCache", status := "error", note := "", error := some e }

/-- The health check's cache probe (`main.py` lines 150–155):
`cache_enabled = cache_stats().get('status') == 'active'`. -/
def health_check_cache_enabled : Bool := cache_stats.status == "active"

/-- Gregorian date from a day count since 1970-01-01 (the civil-from-days
algorithm), embedding `time.gmtime`'s year/month/day fields. -/
def civilFromDays (days : Nat) : Nat × Nat × Nat :=
  let z := days + 719468
  let era := z / 146097
  let doe := z % 146097
  let yoe := (doe - doe / 1460 + doe / 36524 - doe / 146096) / 365
  let y := yoe + era * 400
  let doy := doe - (365 * yoe + yoe / 4 - yoe / 100)
  let mp := (5 * doy + 2) / 153
  let d := doy - (153 * mp + 2) / 5 + 1
  let m := if mp < 10 then mp + 3 else mp - 9
  (if m ≤ 2 then y + 1 else y, m, d)

/-- Two-digit zero padding, as `strftime`'s `%d`/`%H`/`%M`/`%S` print. -/
def pad2 (n : Nat) : String :=
  if n < 10 then "0" ++ toString n else toString n

/-- Abbreviated weekday name (`%a`); index 0 is Sunday as in `tm_wday`. -/
def weekdayName (w : Nat) : String :=
  (["Sun", "Mon", "Tue", "Wed", "Thu", "Fri", "Sat"].getD w "")

/-- Abbreviated month name (`%b`) for months 1–12. -/
def monthName (m : Nat) : String :=
  (["Jan", "Feb", "Mar", "Apr", "May", "Jun", "Jul", "Aug", "Sep", "Oct",
    "Nov", "Dec"].getD (m - 1) "")

/-- Embeds `time.strftime('%a, %d %b %Y %H:%M:%S GMT', time.gmtime(t))` for an
epoch second count `t` (`cache_manager.py` lines 203–206): the RFC1123
timestamp put in the `Expires` header. -/
def httpDate (t : Nat) : String :=
  let days := t / 86400
  let secs := t % 86400
  let ymd := civilFromDays days
  let wday := (days + 4) % 7
  weekdayName wday ++ ", " ++ pad2 ymd.2.2 ++ " " ++ monthName ymd.2.1 ++ " " ++
    toString ymd.1 ++ " " ++ pad2 (secs / 3600) ++ ":" ++ pad2 (secs % 3600 / 60) ++
    ":" ++ pad2 (secs % 60) ++ " GMT"

/-- A Flask response as the header middleware sees it: a status code and
a header mapping. -/
structure HttpResponse where
  status_code : Nat
  headers : List (String × String)

/-- Embeds `response.headers[k] = v`: replace the value under an existing header
name, or append the header. -/
def setHeader (hs : List (String × String)) (k v : String) : List (String × String) :=
  if hs.any (fun p => p.1 = k) then
    hs.map (fun p => if p.1 = k then (k, v) else p)
  else hs ++ [(k, v)]

/-- Header lookup, for stating what `add_cache_headers` wrote. -/
def getHeader (hs : List (String × String)) (k : String) : Option String :=
  (hs.find? (fun p => p.1 = k)).map (fun p => p.2)

/-- Embeds `add_cache_headers` (`cache_manager.py` lines 199–207): when the
status code is 200, set `Cache-Control: public, max-age=<timeout>` and
`Expires: <RFC1123 of now + timeout>`; otherwise return the response
untouched.  `now` stands for `time.time()`. -/
def add_cache_headers (response : HttpResponse) (timeout : Nat) (now : Nat) :
    HttpResponse :=
  if response.status_code = 200 then
    { response with
      headers :=
        setHeader
          (setHeader response.headers "Cache-Control"
            ("public, max-age=" ++ toString timeout))
          "Expires" (httpDate (now + timeout)) }
  else response

/-- The page assembled by the public list endpoint `get_vehicles`
(`vehicles_cached.py` lines 46–132).  `pageArg`/`perPageArg` are
`request.args.get('page'/'per_page', ..., type=int)` (absent or
unparsable query values give the defaults 1 and 12); `per_page` is capped
at 50.  Modelled from the spec: the Catalog Store's
`list(filters, sort, page) -> Page` is external, so pagination over the
already-filtered active vehicles is embedded as drop/take. -/
structure VehiclesPage where
  vehicles : List PyVal
  page : Int
  per_page : Int

/-- Embeds the pagination of `get_vehicles`: `per_page = min(request.args.get('per_page',
12, type=int), 50)` (`vehicles_cached.py` line 67) and a page slice of the
active vehicles. -/
def get_vehicles (activeVehicles : List PyVal) (pageArg perPageArg : Option Int) :
    VehiclesPage :=
  let page := pageArg.getD 1
  let per_page := min (perPageArg.getD 12) 50
  let items := (activeVehicles.drop ((page - 1) * per_page).toNat).take per_page.toNat
  { vehicles := items, page := page, per_page := per_page }

/-- Observable events of a write handler, in program order: the database
commit succeeding or raising, and the cache invalidation call. -/
inductive WriteEvent where
  | commitOk
  | commitFail
  | invalidateCache
deriving DecidableEq, Repr

/-- A write handler's outcome: its event trace and HTTP status. -/
structure WriteOutcome where
  events : List WriteEvent
  status : Nat
deriving DecidableEq, Repr

/-- Embeds `create_vehicle` (`vehicles_cached.py` lines 284–331): `schema.load`
may raise `ValidationError` (caught → 400, before any commit); a failing
`db.session.commit()` raises (caught → 500, before the invalidation
line); on success `invalidate_vehicle_cache()` runs right after the
commit → 201. -/
def create_vehicle (validationOk commitSucceeds : Bool) : WriteOutcome :=
  if validationOk then
    if commitSucceeds then
      { events := [WriteEvent.commitOk, WriteEvent.invalidateCache], status := 201 }
    else { events := [WriteEvent.commitFail], status := 500 }
  else { events := [], status := 400 }

/-- Embeds `update_vehicle` (`vehicles_cached.py` lines 333–383): missing vehicle
→ 404 with no commit; then like `create_vehicle` with a 200 on success. -/
def update_vehicle (found validationOk commitSucceeds : Bool) : WriteOutcome :=
  if found then
    if validationOk then
      if commitSucceeds then
        { events := [WriteEvent.commitOk, WriteEvent.invalidateCache], status := 200 }
      else { events := [WriteEvent.commitFail], status := 500 }
    else { events := [], status := 400 }
  else { events := [], status := 404 }

/-- Embeds `delete_vehicle` (soft delete, `vehicles_cached.py` lines 385–411):
missing vehicle → 404; failing commit → 500 with no invalidation; on
success the invalidation runs after the commit → 200. -/
def delete_vehicle (found commitSucceeds : Bool) : WriteOutcome :=
  if found then
    if commitSucceeds then
      { events := [WriteEvent.commitOk, WriteEvent.invalidateCache], status := 200 }
    else { events := [WriteEvent.commitFail], status := 500 }
  else { events := [], status := 404 }

/-- Embeds `restore_vehicle` (`vehicles_cached.py` lines 413–442): same shape as
`delete_vehicle`, setting `is_active = True` before the commit. -/
def restore_vehicle (found commitSucceeds : Bool) : WriteOutcome :=
  if found then
    if commitSucceeds then
      { events := [WriteEvent.commitOk, WriteEvent.invalidateCache], status := 200 }
    else { events := [WriteEvent.commitFail], status := 500 }
  else { events := [], status := 404 }

/-- A write handler's trace is invalidation-safe when any invalidation it
records is immediately preceded by a successful commit and is absent from
every failing trace. -/
def invalidate_after_commit (o : WriteOutcome) : Bool :=
  (!(o.events.contains WriteEvent.invalidateCache) ||
    o.events == [WriteEvent.commitOk, WriteEvent.invalidateCache]) &&
  (!(o.events.contains WriteEvent.commitFail) ||
    !(o.events.contains WriteEvent.invalidateCache))

/- ======================  theorems  ====================== -/

theorem SimpleCache.get_of_entries_nil {c : SimpleCache} (h : c.entries = [])
    (k : String) (now : Nat) : c.get k now = Option.none := by
  unfold SimpleCache.get
  rw [h]
  rfl

theorem decorated_function_of_miss {c : SimpleCache} {key : String} {now : Nat}
    (h : c.get key now = Option.none) (f : Unit → PyVal) (timeout : Nat) :
    decorated_function key f timeout c now =
      (if cacheable_result (f ()) then
        { result := f (), store := c.set key (f ()) timeout now, fnCalls := 1,
          logs := ["MISS", "SET"] }
      else { result := f (), store := c, fnCalls := 1, logs := ["MISS"] }) := by
  unfold decorated_function
  rw [h]

theorem decorated_function_of_hit {c : SimpleCache} {key : String} {now : Nat}
    {v : PyVal} (h : c.get key now = some v) (f : Unit → PyVal) (timeout : Nat) :
    decorated_function key f timeout c now =
      { result := v, store := c, fnCalls := 0, logs := ["HIT"] } := by
  unfold decorated_function
  rw [h]

theorem decorated_function_fnCalls_of_miss {c : SimpleCache} {key : String} {now : Nat}
    (h : c.get key now = Option.none) (f : Unit → PyVal) (timeout : Nat) :
    (decorated_function key f timeout c now).fnCalls = 1 := by
  rw [decorated_function_of_miss h f timeout]
  by_cases hc : cacheable_result (f ()) <;> simp [hc]

/-- C1: every invalidation call — with a vehicle id or without — clears
the entire cache store, every subsequent read misses, and any decorated
read on the cleared store runs its compute function. -/
theorem invalidate_clears_store_and_forces_recompute :
    ∀ (vid : Option Nat) (c : SimpleCache),
      (invalidate_vehicle_cache vid false c).store.entries = [] ∧
      (∀ k now, (invalidate_vehicle_cache vid false c).store.get k now = Option.none) ∧
      (∀ key f timeout now,
        (decorated_function key f timeout
          (invalidate_vehicle_cache vid false c).store now).fnCalls = 1) := by
  intro vid c
  have hnil : (invalidate_vehicle_cache vid false c).store.entries = [] := by
    cases vid <;> rfl
  refine ⟨hnil, fun k now => SimpleCache.get_of_entries_nil hnil k now, ?_⟩
  intro key f timeout now
  exact decorated_function_fnCalls_of_miss
    (SimpleCache.get_of_entries_nil hnil key now) f timeout

/-- C4: for create, update, soft-delete and restore, cache invalidation
appears in a handler's trace only as the step right after a successful
commit, never in a failing trace; it runs exactly when the write
succeeded. -/
theorem writes_invalidate_only_after_successful_commit :
    ∀ (found validationOk commitSucceeds : Bool),
      invalidate_after_commit (create_vehicle validationOk commitSucceeds) = true ∧
      invalidate_after_commit (update_vehicle found validationOk commitSucceeds) = true ∧
      invalidate_after_commit (delete_vehicle found commitSucceeds) = true ∧
      invalidate_after_commit (restore_vehicle found commitSucceeds) = true ∧
      (create_vehicle validationOk commitSucceeds).events.contains
          WriteEvent.invalidateCache = (validationOk && commitSucceeds) ∧
      (update_vehicle found validationOk commitSucceeds).events.contains
          WriteEvent.invalidateCache = (found && validationOk && commitSucceeds) ∧
      (delete_vehicle found commitSucceeds).events.contains
          WriteEvent.invalidateCache = (found && commitSucceeds) ∧
      (restore_vehicle found commitSucceeds).events.contains
          WriteEvent.invalidateCache = (found && commitSucceeds) := by
  decide

/-- C6: `invalidate_vehicle_cache` never raises — even when clearing the
backing store throws, the exception is caught (and a log line emitted), so
the triggering write is never blocked. -/
theorem invalidate_vehicle_cache_never_raises :
    ∀ (vid : Option Nat) (clearFails : Bool) (c : SimpleCache),
      (invalidate_vehicle_cache vid clearFails c).raised = false ∧
      (invalidate_vehicle_cache vid clearFails c).logs.length = 1 := by
  intro vid clearFails c
  cases vid <;> cases clearFails <;> exact ⟨rfl, rfl⟩

/-- C9: the public list endpoint's effective page size is
`min(per_page, 50)` with default 12 when the parameter is absent, so a
page never carries more than 50 vehicles. -/
theorem get_vehicles_page_size_capped :
    ∀ (activeVehicles : List PyVal) (pageArg perPageArg : Option Int),
      (get_vehicles activeVehicles pageArg perPageArg).per_page =
        min (perPageArg.getD 12) 50 ∧
      (get_vehicles activeVehicles pageArg perPageArg).vehicles.length ≤ 50 := by
  intro vs pageArg perPageArg
  refine ⟨rfl, ?_⟩
  have h1 : (get_vehicles vs pageArg perPageArg).vehicles.length ≤
      (min (perPageArg.getD 12) 50).toNat := by
    simp [get_vehicles]
  refine h1.trans ?_
  have h2 : min (perPageArg.getD 12) 50 ≤ (50 : Int) := min_le_right _ _
  omega

theorem SimpleCache.get_set_same (c : SimpleCache) (k : String) (v : PyVal)
    (t now now' : Nat) :
    (c.set k v t now).get k now' =
      if now' < now + t then some v else Option.none := by
  unfold SimpleCache.set SimpleCache.get
  simp only []
  rw [List.find?_append]
  have hroom : List.find? (fun e => e.key = k && now' < e.expires)
      ((c.entries.filter fun e => e.key ≠ k).drop
        ((c.entries.filter fun e => e.key ≠ k).length + 1 - c.threshold)) =
      Option.none := by
    rw [List.find?_eq_none]
    intro e he
    have hk : e.key ≠ k := by
      have hmem := List.mem_of_mem_drop he
      have := List.of_mem_filter hmem
      simpa using this
    simp [hk]
  rw [hroom]
  by_cases h : now' < now + t <;> simp [List.find?, h]

/-- C2 counterexample: a non-empty string is a sequence (so, per the
claim, "of a cacheable shape"), yet `decorated_function` does not store
it — the stored-iff-cacheable-shape equivalence of the claim fails at
`"ok"`. -/
theorem decorated_function_spec_shape_counterexample :
    truthy (PyVal.str "ok") = true ∧
    cacheable_shape_spec (PyVal.str "ok") = true ∧
    (decorated_function "k1" (fun _ => PyVal.str "ok") 10
      SimpleCache.empty 0).logs.contains "SET" = false ∧
    (decorated_function "k1" (fun _ => PyVal.str "ok") 10
      SimpleCache.empty 0).store.entries = [] := by
  exact ⟨rfl, rfl, rfl, rfl⟩

/-- C2 (amended): on a miss, the computed result is returned to the
caller, and it is stored (a "SET" signal, the store updated with the given
TTL) exactly when it is truthy and is a list, a dict, or an object with a
`status_code` attribute; a falsy result (e.g. the empty list) is never
stored, so an immediately repeated call runs the compute function again. -/
theorem decorated_function_stores_iff_cacheable :
    ∀ (key : String) (f : Unit → PyVal) (timeout : Nat) (c : SimpleCache) (now : Nat),
      c.get key now = Option.none →
      (decorated_function key f timeout c now).result = f () ∧
      ((decorated_function key f timeout c now).logs.contains "SET" =
        cacheable_result (f ())) ∧
      ((decorated_function key f timeout c now).store =
        if cacheable_result (f ()) then c.set key (f ()) timeout now else c) ∧
      (truthy (f ()) = false →
        (decorated_function key f timeout c now).store = c ∧
        (decorated_function key f timeout
          (decorated_function key f timeout c now).store now).fnCalls = 1) := by
  intro key f timeout c now hmiss
  rw [decorated_function_of_miss hmiss f timeout]
  by_cases hc : cacheable_result (f ()) = true
  · rw [if_pos hc]
    refine ⟨rfl, by rw [hc]; rfl, by rw [if_pos hc], ?_⟩
    intro hfalse
    have hcf : cacheable_result (f ()) = false := by
      simp [cacheable_result, hfalse]
    rw [hcf] at hc
    exact absurd hc (by decide)
  · have hcf : cacheable_result (f ()) = false := by
      revert hc
      cases cacheable_result (f ()) <;> simp
    rw [if_neg hc]
    refine ⟨rfl, by rw [hcf]; rfl, by rw [if_neg hc], ?_⟩
    intro _
    exact ⟨rfl, decorated_function_fnCalls_of_miss hmiss f timeout⟩

/-- Witness for C2 (amended): from an empty store, a one-element list is
stored ("SET" emitted) while the empty list is not and forces a second
compute. -/
theorem decorated_function_stores_iff_cacheable_witness :
    ((decorated_function "k1" (fun _ => PyVal.list [PyVal.int 1]) 10
        SimpleCache.empty 0).logs.contains "SET" =
      cacheable_result (PyVal.list [PyVal.int 1])) ∧
    ((decorated_function "k1" (fun _ => PyVal.list []) 10
        SimpleCache.empty 0).store = SimpleCache.empty ∧
      (decorated_function "k1" (fun _ => PyVal.list []) 10
        (decorated_function "k1" (fun _ => PyVal.list []) 10
          SimpleCache.empty 0).store 0).fnCalls = 1) :=
  ⟨(decorated_function_stores_iff_cacheable "k1" (fun _ => PyVal.list [PyVal.int 1])
      10 SimpleCache.empty 0 rfl).2.1,
   (decorated_function_stores_iff_cacheable "k1" (fun _ => PyVal.list [])
      10 SimpleCache.empty 0 rfl).2.2.2 rfl⟩

/-- C3 counterexample: for the compute function returning the empty list,
two immediate calls under the same key within the TTL run the function
twice, not "exactly once" — the claim's universal quantification over
compute functions fails. -/
theorem cached_read_single_compute_counterexample :
    (decorated_function "k1" (fun _ => PyVal.list []) 10
        SimpleCache.empty 0).fnCalls +
      (decorated_function "k1" (fun _ => PyVal.list []) 10
        (decorated_function "k1" (fun _ => PyVal.list []) 10
          SimpleCache.empty 0).store 1).fnCalls = 2 := by
  rfl

/-- C3 (amended): when the first call misses and its computed result is
storable (truthy and of list/dict/`status_code` shape), a second call with
the same key within the TTL window serves the stored value with no second
compute (the two calls run the function exactly once); a call made once
the TTL has elapsed computes again. -/
theorem cached_read_computes_once_within_ttl :
    ∀ (key : String) (f : Unit → PyVal) (ttl : Nat) (c : SimpleCache)
      (now1 now2 now3 : Nat),
      c.get key now1 = Option.none →
      cacheable_result (f ()) = true →
      now2 < now1 + ttl →
      now1 + ttl ≤ now3 →
      (decorated_function key f ttl c now1).fnCalls +
        (decorated_function key f ttl
          (decorated_function key f ttl c now1).store now2).fnCalls = 1 ∧
      (decorated_function key f ttl
        (decorated_function key f ttl c now1).store now2).result = f () ∧
      (decorated_function key f ttl
        (decorated_function key f ttl c now1).store now2).logs = ["HIT"] ∧
      (decorated_function key f ttl
        (decorated_function key f ttl c now1).store now3).fnCalls = 1 := by
  intro key f ttl c now1 now2 now3 hmiss hcacheable h2 h3
  have hstore : (decorated_function key f ttl c now1).store =
      c.set key (f ()) ttl now1 := by
    rw [decorated_function_of_miss hmiss f ttl, if_pos hcacheable]
  have hcalls1 : (decorated_function key f ttl c now1).fnCalls = 1 :=
    decorated_function_fnCalls_of_miss hmiss f ttl
  have hget2 : (decorated_function key f ttl c now1).store.get key now2 =
      some (f ()) := by
    rw [hstore, SimpleCache.get_set_same]
    rw [if_pos h2]
  have hget3 : (decorated_function key f ttl c now1).store.get key now3 =
      Option.none := by
    rw [hstore, SimpleCache.get_set_same]
    rw [if_neg (by omega : ¬ now3 < now1 + ttl)]
  have hhit := decorated_function_of_hit hget2 f ttl
  refine ⟨?_, ?_, ?_, ?_⟩
  · rw [hcalls1, hhit]
    rfl
  · rw [hhit]
  · rw [hhit]
  · exact decorated_function_fnCalls_of_miss hget3 f ttl

/-- Witness for C3 (amended): a dict result cached at time 0 with TTL 10
is served from the cache at time 5 and recomputed at time 10. -/
theorem cached_read_computes_once_within_ttl_witness :
    (decorated_function "k" (fun _ => PyVal.dict [("a", PyVal.int 1)]) 10
        SimpleCache.empty 0).fnCalls +
      (decorated_function "k" (fun _ => PyVal.dict [("a", PyVal.int 1)]) 10
        (decorated_function "k" (fun _ => PyVal.dict [("a", PyVal.int 1)]) 10
          SimpleCache.empty 0).store 5).fnCalls = 1 ∧
    (decorated_function "k" (fun _ => PyVal.dict [("a", PyVal.int 1)]) 10
      (decorated_function "k" (fun _ => PyVal.dict [("a", PyVal.int 1)]) 10
        SimpleCache.empty 0).store 5).result = PyVal.dict [("a", PyVal.int 1)] ∧
    (decorated_function "k" (fun _ => PyVal.dict [("a", PyVal.int 1)]) 10
      (decorated_function "k" (fun _ => PyVal.dict [("a", PyVal.int 1)]) 10
        SimpleCache.empty 0).store 5).logs = ["HIT"] ∧
    (decorated_function "k" (fun _ => PyVal.dict [("a", PyVal.int 1)]) 10
      (decorated_function "k" (fun _ => PyVal.dict [("a", PyVal.int 1)]) 10
        SimpleCache.empty 0).store 10).fnCalls = 1 :=
  cached_read_computes_once_within_ttl "k" (fun _ => PyVal.dict [("a", PyVal.int 1)])
    10 SimpleCache.empty 0 5 10 rfl rfl (by decide) (by decide)

/-- C7: the bounded store — insertion never leaves the store above the
configured threshold; on a full store a fresh-key insertion evicts exactly
the oldest entry; and at read time a key all of whose entries have
expired is treated as absent. -/
theorem bounded_store_invariants :
    ∀ (c : SimpleCache) (k : String) (v : PyVal) (t now : Nat),
      (1 ≤ c.threshold → (c.set k v t now).entries.length ≤ c.threshold) ∧
      (c.entries.length = c.threshold → (∀ e ∈ c.entries, e.key ≠ k) →
        (c.set k v t now).entries =
          c.entries.tail ++ [{ key := k, val := v, expires := now + t }]) ∧
      (∀ now', c.get k now' = Option.none ↔
        ∀ e ∈ c.entries, e.key = k → e.expires ≤ now') := by
  intro c k v t now
  refine ⟨?_, ?_, ?_⟩
  · intro hthr
    unfold SimpleCache.set
    simp only [List.length_append, List.length_drop, List.length_cons,
      List.length_nil]
    omega
  · intro hlen hfresh
    unfold SimpleCache.set
    have hkept : c.entries.filter (fun e => e.key ≠ k) = c.entries := by
      rw [List.filter_eq_self]
      intro e he
      simpa using hfresh e he
    simp only [hkept, hlen]
    have hone : c.threshold + 1 - c.threshold = 1 := by omega
    rw [hone, List.drop_one]
  · intro now'
    unfold SimpleCache.get
    rcases hfind : List.find? (fun e => e.key = k && now' < e.expires) c.entries
      with _ | e
    · simp only [hfind]
      constructor
      · intro _ e he hek
        have hp := List.find?_eq_none.mp hfind e he
        simp [hek] at hp
        omega
      · intro _
        trivial
    · simp only [hfind]
      constructor
      · intro h
        cases h
      · intro hall
        have hmem := List.mem_of_find?_eq_some hfind
        have hp := List.find?_some hfind
        simp at hp
        have := hall e hmem hp.1
        omega

/-- Witness for C7: the spec's concrete scenario — threshold 2, TTL 2,
entries A and B stored at time 0, C inserted at time 1 — leaves exactly
two entries with A (the oldest) evicted; and A alone is invisible at time
5, after its TTL. -/
theorem bounded_store_invariants_witness :
    ((SimpleCache.mk [⟨"A", PyVal.int 1, 2⟩, ⟨"B", PyVal.int 2, 2⟩] 2).set "C"
        (PyVal.int 3) 2 1).entries.length ≤ 2 ∧
    ((SimpleCache.mk [⟨"A", PyVal.int 1, 2⟩, ⟨"B", PyVal.int 2, 2⟩] 2).set "C"
        (PyVal.int 3) 2 1).entries =
      [⟨"B", PyVal.int 2, 2⟩, ⟨"C", PyVal.int 3, 3⟩] ∧
    (SimpleCache.mk [⟨"A", PyVal.int 1, 2⟩] 500).get "A" 5 = Option.none := by
  refine ⟨?_, ?_, ?_⟩
  · exact (bounded_store_invariants
      (SimpleCache.mk [⟨"A", PyVal.int 1, 2⟩, ⟨"B", PyVal.int 2, 2⟩] 2) "C"
      (PyVal.int 3) 2 1).1 (by decide)
  · exact ((bounded_store_invariants
      (SimpleCache.mk [⟨"A", PyVal.int 1, 2⟩, ⟨"B", PyVal.int 2, 2⟩] 2) "C"
      (PyVal.int 3) 2 1).2.1 rfl (by decide)).trans rfl
  · exact ((bounded_store_invariants
      (SimpleCache.mk [⟨"A", PyVal.int 1, 2⟩] 500) "A" (PyVal.int 0) 0 0).2.2 5).mpr
      (by decide)

/-- C5: `generate_cache_key` is a deterministic function of the request
part, the positional arguments and the keyword-argument set: two
keyword-argument lists holding the same pairs in any order (any
permutation) produce identical keys, whatever the hash. -/
theorem generate_cache_key_kwargs_order_independent :
    ∀ (hash : String → String) (urlPart : String) (args : List String)
      (kw1 kw2 : List (String × String)), kw1.Perm kw2 →
      generate_cache_key hash urlPart args kw1 =
        generate_cache_key hash urlPart args kw2 := by
  intro hash urlPart args kw1 kw2 hperm
  have hsortperm : (kw1.insertionSort kwLe).Perm (kw2.insertionSort kwLe) :=
    ((List.perm_insertionSort kwLe kw1).trans hperm).trans
      (List.perm_insertionSort kwLe kw2).symm
  have hsorted := List.eq_of_perm_of_sorted hsortperm
    (List.sorted_insertionSort kwLe kw1) (List.sorted_insertionSort kwLe kw2)
  unfold generate_cache_key
  rw [hsorted]

/-- Witness for C5: the two insertion orders of `{a: 1, b: 2}` hash to the
same key. -/
theorem generate_cache_key_kwargs_order_independent_witness :
    generate_cache_key id "/api/vehicles?x=1" ["7"] [("b", "2"), ("a", "1")] =
      generate_cache_key id "/api/vehicles?x=1" ["7"] [("a", "1"), ("b", "2")] :=
  generate_cache_key_kwargs_order_independent id "/api/vehicles?x=1" ["7"]
    [("b", "2"), ("a", "1")] [("a", "1"), ("b", "2")]
    (List.Perm.swap ("a", "1") ("b", "2") [])

/-- C10: `cache_stats` always reports `SimpleCache`/`active` — its `try`
body is a literal dictionary that cannot raise, so the `error` branch is
dead and the health check always sees the cache as enabled. -/
theorem cache_stats_always_active :
    cache_stats.cache_type = "SimpleCache" ∧ cache_stats.status = "active" ∧
    cache_stats.status ≠ "error" ∧ cache_stats.error = Option.none ∧
    health_check_cache_enabled = true := by
  refine ⟨rfl, rfl, by decide, rfl, rfl⟩

theorem find?_map_replace (hs : List (String × String)) (k v : String) :
    (hs.map (fun p => if p.1 = k then (k, v) else p)).find? (fun q => q.1 = k) =
      (hs.find? (fun q => q.1 = k)).map (fun _ => (k, v)) := by
  induction hs with
  | nil => rfl
  | cons p t ih =>
    by_cases hp : p.1 = k
    · simp [List.find?, hp]
    · simp [List.find?, hp, ih]

theorem find?_map_replace_other (hs : List (String × String)) (k v k' : String)
    (hne : k' ≠ k) :
    (hs.map (fun p => if p.1 = k then (k, v) else p)).find? (fun q => q.1 = k') =
      hs.find? (fun q => q.1 = k') := by
  induction hs with
  | nil => rfl
  | cons p t ih =>
    by_cases hp : p.1 = k
    · simp [List.find?, hp, Ne.symm hne, ih]
    · by_cases hq : p.1 = k'
      · simp [List.find?, hp, hq, hne]
      · simp [List.find?, hp, hq, ih]

theorem getHeader_setHeader_self (hs : List (String × String)) (k v : String) :
    getHeader (setHeader hs k v) k = some v := by
  unfold setHeader getHeader
  by_cases h : hs.any (fun p => p.1 = k)
  · rw [if_pos h, find?_map_replace]
    obtain ⟨x, hx, hpx⟩ := List.any_eq_true.mp h
    have hsome : (hs.find? (fun q => decide (q.1 = k))).isSome :=
      List.find?_isSome.mpr ⟨x, hx, hpx⟩
    obtain ⟨y, hy⟩ := Option.isSome_iff_exists.mp hsome
    rw [hy]
    rfl
  · rw [if_neg h, List.find?_append]
    have hnone : hs.find? (fun q => q.1 = k) = Option.none := by
      rw [List.find?_eq_none]
      intro x hx hpx
      exact h (List.any_eq_true.mpr ⟨x, hx, hpx⟩)
    rw [hnone]
    simp [List.find?]

theorem getHeader_setHeader_other (hs : List (String × String)) (k v k' : String)
    (hne : k' ≠ k) :
    getHeader (setHeader hs k v) k' = getHeader hs k' := by
  unfold setHeader getHeader
  by_cases h : hs.any (fun p => p.1 = k)
  · rw [if_pos h, find?_map_replace_other hs k v k' hne]
  · rw [if_neg h, List.find?_append]
    have hk : ¬ (k = k') := fun hkk => hne hkk.symm
    have h2 : List.find? (fun q => q.1 = k') [(k, v)] = Option.none := by
      simp [List.find?_cons, hk]
    rw [h2]
    cases hs.find? (fun q => q.1 = k') <;> rfl

/-- C8: `add_cache_headers` sets `Cache-Control` to
`public, max-age=<timeout>` and `Expires` to the RFC1123 rendering of
`now + timeout` exactly when the status code is 200, leaves every other
header untouched, and returns any non-200 response entirely unchanged. -/
theorem add_cache_headers_only_on_status_200 :
    ∀ (r : HttpResponse) (timeout now : Nat),
      (getHeader (add_cache_headers r timeout now).headers "Cache-Control" =
        if r.status_code = 200 then some ("public, max-age=" ++ toString timeout)
        else getHeader r.headers "Cache-Control") ∧
      (getHeader (add_cache_headers r timeout now).headers "Expires" =
        if r.status_code = 200 then some (httpDate (now + timeout))
        else getHeader r.headers "Expires") ∧
      (∀ h, h ≠ "Cache-Control" → h ≠ "Expires" →
        getHeader (add_cache_headers r timeout now).headers h =
          getHeader r.headers h) ∧
      (r.status_code ≠ 200 → add_cache_headers r timeout now = r) := by
  intro r timeout now
  by_cases hs : r.status_code = 200
  · unfold add_cache_headers
    rw [if_pos hs]
    refine ⟨?_, ?_, ?_, ?_⟩
    · rw [if_pos hs]
      rw [getHeader_setHeader_other _ _ _ _ (by decide : "Cache-Control" ≠ "Expires")]
      exact getHeader_setHeader_self _ _ _
    · rw [if_pos hs]
      exact getHeader_setHeader_self _ _ _
    · intro h hcc hexp
      rw [getHeader_setHeader_other _ _ _ _ hexp, getHeader_setHeader_other _ _ _ _ hcc]
    · intro hne
      exact absurd hs hne
  · unfold add_cache_headers
    rw [if_neg hs]
    exact ⟨by rw [if_neg hs], by rw [if_neg hs], fun h _ _ => rfl, fun _ => rfl⟩

/-- Witness for C8: at status 200, both cache headers are set (keeping an
unrelated header readable); a 404 response comes back unchanged. -/
theorem add_cache_headers_only_on_status_200_witness :
    getHeader (add_cache_headers (HttpResponse.mk 200 [("X-Other", "y")]) 3600 0).headers
        "Cache-Control" = some "public, max-age=3600" ∧
    getHeader (add_cache_headers (HttpResponse.mk 200 [("X-Other", "y")]) 3600 0).headers
        "Expires" = some "Thu, 01 Jan 1970 01:00:00 GMT" ∧
    getHeader (add_cache_headers (HttpResponse.mk 200 [("X-Other", "y")]) 3600 0).headers
        "X-Other" = some "y" ∧
    add_cache_headers (HttpResponse.mk 404 []) 3600 0 = HttpResponse.mk 404 [] := by
  have h := add_cache_headers_only_on_status_200
    (HttpResponse.mk 200 [("X-Other", "y")]) 3600 0
  have h404 := add_cache_headers_only_on_status_200 (HttpResponse.mk 404 []) 3600 0
  refine ⟨?_, ?_, ?_, h404.2.2.2 (by decide)⟩
  · have h1 := h.1
    rw [if_pos rfl] at h1
    exact h1
  · have h2 := h.2.1
    rw [if_pos rfl] at h2
    exact h2
  · exact h.2.2.1 "X-Other" (by decide) (by decide)

end CacheSpec
